import Mathlib

set_option maxRecDepth 100000

/-
  Verification development for the deepagents bounded-context maintenance
  pipeline (src/deepagents/compression.py and src/deepagents/graph.py).

  The Python code is shallowly embedded: a Python `str` is modelled as its
  sequence of code points (`List Char`), so `len`, slicing and `+` become
  `List.length`, `take`/`drop` and `++`; messages are role/content records;
  the agent state is a record of the fields the hooks read; patches are
  records of the optional keys the hooks write; and the external LangChain
  utilities (token counter, message trimmer) are abstract function
  parameters, the trimmer returning `Except` to model the exception it may
  raise inside the hook's try/except block.
-/

namespace DeepAgents

/-- A Python `str`: a sequence of code points. -/
abbrev Str : Type := List Char

/-- Code points of a Lean string literal. -/
def str (s : String) : Str := s.data

/-- Decimal rendering of a number, as interpolated by an f-string. -/
def natStr (n : Nat) : Str := (toString n).data

/-- Message roles at the hook boundary (system / human / ai / tool). -/
inductive Role where
  | system
  | human
  | ai
  | tool
deriving DecidableEq

/-- A chat message: a role tag and a text content. -/
structure Message where
  role : Role
  content : Str
deriving DecidableEq

/-- `SystemMessage(content)` from langchain_core, as used by the hooks. -/
def SystemMessage (content : Str) : Message :=
  { role := Role.system, content := content }

/-- Message-selection strategy (`Literal["first", "last"]`). -/
inductive Strategy where
  | first
  | last
deriving DecidableEq

/-- Rendering of a strategy, as interpolated into the notification text. -/
def Strategy.render : Strategy → Str
  | Strategy.first => str "first"
  | Strategy.last => str "last"

/-- The `CompressionConfig` dataclass of compression.py, with its defaults. -/
structure CompressionConfig where
  max_tokens : Nat := 8000
  strategy : Strategy := Strategy.last
  start_on : Role := Role.human
  end_on : List Role := [Role.human, Role.tool]
  include_system : Bool := true
  compress_files : Bool := true
  max_file_size : Nat := 10000
  destructive : Bool := false
deriving DecidableEq

/-- The slice of the agent state the compression hook reads:
`state.get("messages", [])`, `state.get("files", {})` (modelled as an
insertion-ordered association list, like a Python dict), and the optional
`llm_input_messages` key. -/
structure AgentState where
  messages : List Message := []
  files : List (String × Str) := []
  llm_input_messages : Option (List Message) := none
deriving DecidableEq

/-- An element of a `messages` patch value: either the
`RemoveMessage(REMOVE_ALL_MESSAGES)` marker or an ordinary message. -/
inductive MsgItem where
  | removeAll
  | msg (m : Message)
deriving DecidableEq

/-- The partial update (`updates` dict) a compression hook may return; each
field is present exactly when the corresponding key is in the dict. -/
structure Patch where
  messages : Option (List MsgItem) := none
  llm_input_messages : Option (List Message) := none
  files : Option (List (String × Str)) := none
deriving DecidableEq

/-- Python truthiness of the `updates` dict: `{}` is falsy. -/
def Patch.isEmpty (p : Patch) : Bool :=
  p.messages.isNone && p.llm_input_messages.isNone && p.files.isNone

/-- `updates.update(file_updates)`: keys of the second dict win. -/
def patchUpdate (u f : Patch) : Patch :=
  { messages := f.messages <|> u.messages
    llm_input_messages := f.llm_input_messages <|> u.llm_input_messages
    files := f.files <|> u.files }

/-- Python `content[-k:]`: for `k = 0` this is the whole string (since
`-0 == 0`), otherwise the last `k` characters. -/
def pySliceFromEnd (s : Str) (k : Nat) : Str :=
  if k = 0 then s else s.drop (s.length - k)

/-- The truncation notice inserted between the kept head and tail of an
oversized file, stating how many characters were omitted. -/
def elisionMarker (omitted : Nat) : Str :=
  str "\n\n[... Content truncated - " ++ natStr omitted ++ str " characters omitted ...]\n\n"

/-- `_compress_files` of compression.py: entries longer than
`max_file_size` are replaced by head + elision marker + tail with
`keep_size = max_file_size // 3`; other entries pass through. -/
def _compress_files (files : List (String × Str)) (config : CompressionConfig) :
    List (String × Str) :=
  files.map fun p =>
    if p.2.length > config.max_file_size then
      let keep_size := config.max_file_size / 3
      (p.1, p.2.take keep_size
        ++ elisionMarker (p.2.length - 2 * keep_size)
        ++ pySliceFromEnd p.2 keep_size)
    else
      p

/-- The `compressed_file_names` list comprehension: names of entries whose
content exceeds `max_file_size`, in insertion order. -/
def compressedFileNames (files : List (String × Str)) (config : CompressionConfig) :
    List String :=
  (files.filter fun p => p.2.length > config.max_file_size).map Prod.fst

/-- The file-compression notification message (`file_msg`). -/
def fileNotice (files : List (String × Str)) (config : CompressionConfig) : Message :=
  SystemMessage (str "[SYSTEM: Files compressed - "
    ++ (String.intercalate ", " (compressedFileNames files config)).data
    ++ str " truncated due to size limit (" ++ natStr config.max_file_size ++ str " chars).]")

/-- `_compress_files_if_needed` of compression.py: returns a patch only when
file compression is enabled, files exist, and compression changed something;
the notification is appended to `messages` (destructive) or to the
`llm_input_messages` view (non-destructive). -/
def _compress_files_if_needed (state : AgentState) (config : CompressionConfig) :
    Option Patch :=
  if config.compress_files = false then
    none
  else
    let files := state.files
    if files = [] then
      none
    else
      let compressed_files := _compress_files files config
      if compressed_files ≠ files then
        if compressedFileNames files config ≠ [] then
          let file_msg := fileNotice files config
          if config.destructive then
            some { messages := some ((state.messages ++ [file_msg]).map MsgItem.msg)
                   files := some compressed_files }
          else
            let llm_messages := state.llm_input_messages.getD state.messages
            some { llm_input_messages := some (llm_messages ++ [file_msg])
                   files := some compressed_files }
        else
          some { files := some compressed_files }
      else
        none

/-- The `compression_msg` notification recording the trim, built from the
pre-append trimmed list and the two token counts. -/
def compressionNotice (config : CompressionConfig) (messages trimmed : List Message)
    (current_tokens after_tokens : Nat) : Message :=
  SystemMessage (str "[SYSTEM: Context compressed using LangGraph - reduced from "
    ++ natStr messages.length ++ str " to " ++ natStr trimmed.length
    ++ str " messages, ~" ++ natStr current_tokens ++ str " to ~" ++ natStr after_tokens
    ++ str " tokens using \x27" ++ config.strategy.render ++ str "\x27 strategy.]")

/-- The pre-model `compression_hook` of compression.py. The external
LangChain utilities are abstract parameters: `counter` embeds
`count_tokens_approximately` and `trimmer` embeds `trim_messages` (called
with the config's trim parameters), returning `Except.error` when the
try-block body would raise. -/
def compression_hook (config : CompressionConfig) (counter : List Message → Nat)
    (trimmer : CompressionConfig → List Message → Except String (List Message))
    (state : AgentState) : Option Patch :=
  if state.messages = [] then
    _compress_files_if_needed state config
  else
    let current_tokens := counter state.messages
    if current_tokens ≤ config.max_tokens then
      _compress_files_if_needed state config
    else
      match trimmer config state.messages with
      | Except.error _ => _compress_files_if_needed state config
      | Except.ok trimmed =>
        let trimmed_messages := trimmed
          ++ [compressionNotice config state.messages trimmed current_tokens (counter trimmed)]
        let updates : Patch :=
          if config.destructive then
            { messages := some (MsgItem.removeAll :: trimmed_messages.map MsgItem.msg) }
          else
            { llm_input_messages := some trimmed_messages }
        let merged :=
          match _compress_files_if_needed state config with
          | some file_updates => patchUpdate updates file_updates
          | none => updates
        if merged.isEmpty then none else some merged

/-- A Python dict with string keys, as an insertion-ordered association
list with unique keys (the representation used by `chain_hooks`, whose
states and patches are plain dicts). -/
abbrev Dict (V : Type) : Type := List (String × V)

/-- Dict lookup: value at the first matching key. -/
def dlookup {V : Type} (x : String) : Dict V → Option V
  | [] => none
  | p :: rest => if p.1 = x then some p.2 else dlookup x rest

/-- Python truthiness of a dict: `{}` is falsy. -/
def Dict.isEmpty {V : Type} : Dict V → Bool
  | [] => true
  | _ :: _ => false

/-- `d.update(e)` / `{**d, **e}`: keys already in `d` keep their position
with the value overwritten from `e`; keys only in `e` are appended. -/
def dictUpdate {V : Type} (d e : Dict V) : Dict V :=
  (d.map fun p =>
    match dlookup p.1 e with
    | some w => (p.1, w)
    | none => p)
  ++ e.filter fun p => (dlookup p.1 d).isNone

/-- The loop body of `combined_hook` in graph.py: fold the hooks in list
order, threading the working state and accumulating the merged updates. -/
def runHooks {V : Type} (hooks : List (Dict V → Option (Dict V)))
    (state updates : Dict V) : Dict V :=
  match hooks with
  | [] => updates
  | hook :: rest =>
    match hook state with
    | none => runHooks rest state updates
    | some hook_result =>
      if hook_result.isEmpty then
        runHooks rest state updates
      else
        runHooks rest (dictUpdate state hook_result) (dictUpdate updates hook_result)

/-- `chain_hooks` of graph.py: the combined hook runs every hook in list
order against a working copy of the state, merges each truthy result into
both the working state and the accumulated updates, and returns `None`
when no hook produced anything. -/
def chain_hooks {V : Type} (hooks : List (Dict V → Option (Dict V)))
    (state : Dict V) : Option (Dict V) :=
  let updates := runHooks hooks state []
  if updates.isEmpty then none else some updates

/-- Modelled from the spec: the messages carried by a `messages` patch
value once the host has honoured the replace-all marker — the marker
instructs a wholesale replacement, so only the plain messages remain. -/
def stripItems (items : List MsgItem) : List Message :=
  items.filterMap fun i =>
    match i with
    | MsgItem.removeAll => none
    | MsgItem.msg m => some m

/-- Modelled from the spec: the host (LangGraph's reducer, outside this
repository) applies a patch as a partial update — each present field
replaces the state's value, a `messages` value being a replace-all marker
plus list whose plain messages become the new canonical history. -/
def applyPatch (st : AgentState) (p : Patch) : AgentState :=
  { messages :=
      match p.messages with
      | none => st.messages
      | some items => stripItems items
    files := p.files.getD st.files
    llm_input_messages := p.llm_input_messages <|> st.llm_input_messages }

/-- Modelled from the spec: the state seen by the NEXT hook invocation —
the patch has been applied by the host, and the ephemeral
`llm_input_messages` view was consumed by exactly one engine call and
discarded (it is never read back by the core). -/
def nextTurnState (st : AgentState) (p : Option Patch) : AgentState :=
  let applied :=
    match p with
    | none => st
    | some q => applyPatch st q
  { applied with llm_input_messages := none }

/-- Modelled from the spec: the message list the downstream reasoning
engine consumes for this turn — the ephemeral view when the patch provides
one, otherwise the (patched) canonical history. -/
def downstreamMessages (st : AgentState) (p : Option Patch) : List Message :=
  match p with
  | none => st.messages
  | some q =>
    match q.llm_input_messages with
    | some l => l
    | none => (applyPatch st q).messages

/-! Concrete instruments used to evaluate the model on explicit inputs: a
deterministic character-count token counter and simple trimmers standing in
for the injected LangChain capabilities, plus small states and configs. -/

/-- A deterministic token counter: total character count of the contents. -/
def lenCounter : List Message → Nat :=
  fun l => (l.map fun m => m.content.length).sum

/-- A trimmer that keeps everything but the first message. -/
def dropOneTrimmer : CompressionConfig → List Message → Except String (List Message) :=
  fun _ l => Except.ok (l.drop 1)

/-- A trimmer that always raises. -/
def errTrimmer : CompressionConfig → List Message → Except String (List Message) :=
  fun _ _ => Except.error "trim failed"

def mHello : Message := { role := Role.human, content := str "hello" }

def mWorld : Message := { role := Role.ai, content := str "world" }

/-- Tight budgets on both channels, non-destructive (the default mode). -/
def cfgBoth : CompressionConfig := { max_tokens := 4, max_file_size := 3 }

/-- Tight budgets on both channels, destructive. -/
def cfgBothD : CompressionConfig :=
  { max_tokens := 4, max_file_size := 3, destructive := true }

/-- Tight message budget only, destructive. -/
def cfgTrimD : CompressionConfig := { max_tokens := 4, destructive := true }

/-- Tight message budget only, non-destructive. -/
def cfgTrimN : CompressionConfig := { max_tokens := 4 }

/-- Default budgets except a tiny file threshold. -/
def cfgFileOnly : CompressionConfig := { max_file_size := 3 }

/-- File threshold below 3, so `keep_size = 0`. -/
def cfgTiny : CompressionConfig := { max_file_size := 1 }

/-- File threshold 10: the elision marker alone overflows it. -/
def cfgTen : CompressionConfig := { max_file_size := 10 }

/-- File threshold 200: compressed entries fit back under it. -/
def cfg200 : CompressionConfig := { max_file_size := 200 }

def stBoth : AgentState :=
  { messages := [mHello, mWorld], files := [("f", str "abcde")] }

def stTrim : AgentState := { messages := [mHello, mWorld] }

def stSmall : AgentState := { messages := [mHello], files := [("f", str "abcde")] }

def elevenAs : Str := List.replicate 11 'a'

def longAs : Str := List.replicate 201 'a'

/-- A content that the truncation rule maps to itself: its middle 55
characters are exactly the elision marker stating 55 omitted characters,
so with `max_file_size = 3` (`keep_size = 1`) compression reproduces it. -/
def fixedContent : Str := str "a" ++ elisionMarker 55 ++ str "b"

def stFix : AgentState := { files := [("f", fixedContent)] }

/-- First chained hook for the HookChain witness: writes `x` and `y`. -/
def wHookA : Dict Nat → Option (Dict Nat) :=
  fun _ => some [("x", 1), ("y", 2)]

/-- Second chained hook for the HookChain witness: reads `x` from the state
it observes (so the value proves it saw the first hook's effect) and writes
`x` and `z`. -/
def wHookB : Dict Nat → Option (Dict Nat) :=
  fun st => some [("x", (dlookup "x" st).getD 0 + 5), ("z", 3)]

def wState : Dict Nat := [("x", 0)]

/-! ### Helper lemmas -/

lemma stripItems_map_msg (l : List Message) :
    stripItems (l.map MsgItem.msg) = l := by
  induction l with
  | nil => rfl
  | cons m rest ih => simpa [stripItems] using ih

lemma stripItems_append (a b : List MsgItem) :
    stripItems (a ++ b) = stripItems a ++ stripItems b := by
  simp [stripItems, List.filterMap_append]

lemma stripItems_removeAll (l : List MsgItem) :
    stripItems (MsgItem.removeAll :: l) = stripItems l := rfl

lemma stripItems_singleton_msg (m : Message) :
    stripItems [MsgItem.msg m] = [m] := rfl

lemma stripItems_removeAll_map_msg (l : List Message) :
    stripItems (MsgItem.removeAll :: l.map MsgItem.msg) = l := by
  simpa [stripItems] using stripItems_map_msg l

lemma compress_id_of_small (files : List (String × Str)) (cfg : CompressionConfig)
    (h : ∀ p ∈ files, p.2.length ≤ cfg.max_file_size) :
    _compress_files files cfg = files := by
  induction files with
  | nil => rfl
  | cons p rest ih =>
    have hp := h p (List.mem_cons_self p rest)
    simp only [_compress_files, List.map_cons]
    rw [if_neg (not_lt.mpr hp)]
    exact congrArg (p :: ·) (ih fun q hq => h q (List.mem_cons_of_mem p hq))

lemma names_nil_iff (files : List (String × Str)) (cfg : CompressionConfig) :
    compressedFileNames files cfg = [] ↔
      ∀ p ∈ files, p.2.length ≤ cfg.max_file_size := by
  simp [compressedFileNames, List.map_eq_nil_iff, List.filter_eq_nil_iff, not_lt]

lemma names_ne_nil (files : List (String × Str)) (cfg : CompressionConfig)
    (h : _compress_files files cfg ≠ files) :
    compressedFileNames files cfg ≠ [] := fun hn =>
  h (compress_id_of_small files cfg ((names_nil_iff files cfg).mp hn))

lemma hook_within_budget (cfg : CompressionConfig) (counter : List Message → Nat)
    (trimmer : CompressionConfig → List Message → Except String (List Message))
    (st : AgentState)
    (h : st.messages = [] ∨ counter st.messages ≤ cfg.max_tokens) :
    compression_hook cfg counter trimmer st = _compress_files_if_needed st cfg := by
  by_cases hm : st.messages = []
  · simp [compression_hook, hm]
  · rcases h with h | h
    · exact absurd h hm
    · simp [compression_hook, hm, h]

lemma cfin_eq_none_iff (st : AgentState) (cfg : CompressionConfig) :
    _compress_files_if_needed st cfg = none ↔
      cfg.compress_files = false ∨ st.files = [] ∨
        _compress_files st.files cfg = st.files := by
  simp only [_compress_files_if_needed]
  split
  · next hcf => simp [hcf]
  · next hcf =>
    split
    · next hf => simp [hf]
    · next hf =>
      split
      · next hne =>
        constructor
        · intro hx
          exfalso
          split at hx
          · split at hx <;> simp at hx
          · simp at hx
        · intro hx
          rcases hx with hx | hx | hx
          · exact absurd hx hcf
          · exact absurd hx hf
          · exact absurd hx hne
      · next hne =>
        simp [hcf, hf, not_ne_iff.mp hne]

lemma cfin_spec (st : AgentState) (cfg : CompressionConfig)
    (hcf : cfg.compress_files = true) (hf : st.files ≠ [])
    (hne : _compress_files st.files cfg ≠ st.files) :
    _compress_files_if_needed st cfg =
      if cfg.destructive then
        some { messages := some ((st.messages ++ [fileNotice st.files cfg]).map MsgItem.msg)
               files := some (_compress_files st.files cfg) }
      else
        some { llm_input_messages :=
                 some ((st.llm_input_messages.getD st.messages) ++ [fileNotice st.files cfg])
               files := some (_compress_files st.files cfg) } := by
  have hnames := names_ne_nil st.files cfg hne
  simp only [_compress_files_if_needed]
  rw [if_neg (by simp [hcf]), if_neg hf, if_pos hne, if_pos hnames]

/-! ### C10 — key preservation of file compression -/

/-- C10: for every files mapping and every config, `_compress_files`
returns a mapping with exactly the same keys, in the same order, as its
input — no entry is added, removed or renamed — and every entry at or
below `max_file_size` keeps its value at its position, so only values of
oversized entries change. -/
theorem c10_compress_preserves_entries (files : List (String × Str))
    (cfg : CompressionConfig) :
    (_compress_files files cfg).map Prod.fst = files.map Prod.fst ∧
    ∀ (i : Nat) (n : String) (c : Str), files[i]? = some (n, c) →
      c.length ≤ cfg.max_file_size → (_compress_files files cfg)[i]? = some (n, c) := by
  constructor
  · induction files with
    | nil => rfl
    | cons p rest ih =>
      simp only [_compress_files, List.map_cons] at ih ⊢
      by_cases h : p.2.length > cfg.max_file_size
      · rw [if_pos h]
        exact congrArg (p.1 :: ·) ih
      · rw [if_neg h]
        exact congrArg (p.1 :: ·) ih
  · intro i n c h hle
    simp only [_compress_files, List.getElem?_map, h, Option.map_some']
    rw [if_neg (not_lt.mpr hle)]

/-- Witness for C10 on a mixed store under `max_file_size = 3`: the keys
survive in order and the small entry `("f", "ab")` keeps its value at
position 0 while the oversized second entry is rewritten. -/
theorem c10_compress_preserves_entries_witness :
    (_compress_files [("f", str "ab"), ("g", str "abcde")] cfgBoth).map Prod.fst =
      [("f", str "ab"), ("g", str "abcde")].map Prod.fst ∧
    (_compress_files [("f", str "ab"), ("g", str "abcde")] cfgBoth)[0]? =
      some ("f", str "ab") :=
  ⟨(c10_compress_preserves_entries [("f", str "ab"), ("g", str "abcde")] cfgBoth).1,
   (c10_compress_preserves_entries [("f", str "ab"), ("g", str "abcde")] cfgBoth).2
     0 "f" (str "ab") rfl (by decide)⟩

/-! ### C2 — per-entry file threshold rule -/

/-- C2 (amended): an entry at or below `max_file_size` passes through
byte-identically under the same key; an oversized entry becomes, with
`k = max_file_size / 3`, `content[0:k] ++ elision_marker(L - 2k) ++
content[L-k:]` whenever `max_file_size ≥ 3` (so `k ≥ 1`); when
`max_file_size < 3`, `k = 0` and Python's `content[-0:]` is the whole
string, so the result is the marker (stating `L` omitted characters)
followed by the entire content. -/
theorem c2_file_threshold (cfg : CompressionConfig) (files : List (String × Str))
    (n : String) (c : Str) (hmem : (n, c) ∈ files) :
    (c.length ≤ cfg.max_file_size → (n, c) ∈ _compress_files files cfg) ∧
    (cfg.max_file_size < c.length → 3 ≤ cfg.max_file_size →
      (n, c.take (cfg.max_file_size / 3)
        ++ elisionMarker (c.length - 2 * (cfg.max_file_size / 3))
        ++ c.drop (c.length - cfg.max_file_size / 3)) ∈ _compress_files files cfg) ∧
    (cfg.max_file_size < c.length → cfg.max_file_size < 3 →
      (n, elisionMarker c.length ++ c) ∈ _compress_files files cfg) := by
  refine ⟨fun hle => ?_, fun hgt h3 => ?_, fun hgt h3 => ?_⟩
  · refine List.mem_map.mpr ⟨(n, c), hmem, ?_⟩
    exact if_neg (not_lt.mpr hle)
  · refine List.mem_map.mpr ⟨(n, c), hmem, ?_⟩
    have hk : cfg.max_file_size / 3 ≠ 0 := by
      have : 1 ≤ cfg.max_file_size / 3 := Nat.le_div_iff_mul_le (by norm_num) |>.mpr (by omega)
      omega
    rw [if_pos hgt]
    simp only [pySliceFromEnd, if_neg hk]
  · refine List.mem_map.mpr ⟨(n, c), hmem, ?_⟩
    have hk : cfg.max_file_size / 3 = 0 := Nat.div_eq_of_lt h3
    rw [if_pos hgt]
    simp [pySliceFromEnd, hk]

/-- Witness for C2 at the oversized entry `("f", "abcde")` with
`max_file_size = 3`: `k = 1`, head `"a"`, tail `"e"`, 3 characters
omitted. -/
theorem c2_file_threshold_witness :
    ("f", (str "abcde").take (cfgBoth.max_file_size / 3)
      ++ elisionMarker ((str "abcde").length - 2 * (cfgBoth.max_file_size / 3))
      ++ (str "abcde").drop ((str "abcde").length - cfgBoth.max_file_size / 3)) ∈
      _compress_files [("f", str "abcde")] cfgBoth :=
  (c2_file_threshold cfgBoth [("f", str "abcde")] "f" (str "abcde")
    (by decide)).2.1 (by decide) (by decide)

/-- Counterexample to C2 as stated: with `max_file_size = 1` (`k = 0`) the
oversized entry `"ab"` compresses to the marker followed by the whole
content, not to `content[0:0] ++ marker ++ content[L-0:]` (which is the
marker alone, since `content[L:]` is empty). -/
theorem c2_counterexample :
    _compress_files [("f", str "ab")] cfgTiny = [("f", elisionMarker 2 ++ str "ab")] ∧
    cfgTiny.max_file_size < (str "ab").length ∧
    elisionMarker 2 ++ str "ab" ≠
      (str "ab").take (cfgTiny.max_file_size / 3)
        ++ elisionMarker ((str "ab").length - 2 * (cfgTiny.max_file_size / 3))
        ++ (str "ab").drop ((str "ab").length - cfgTiny.max_file_size / 3) :=
  ⟨rfl, by decide, by decide⟩

/-! ### C3 — idempotence of file compression -/

/-- C3 (amended): file compression is idempotent provided every entry of
the compressed store is within `max_file_size` (in particular whenever the
threshold comfortably exceeds the marker overhead); for tiny thresholds a
compressed entry can itself exceed `max_file_size` and is truncated
again, so idempotence fails in general. -/
theorem c3_idempotent_of_small (files : List (String × Str))
    (cfg : CompressionConfig)
    (h : ∀ p ∈ _compress_files files cfg, p.2.length ≤ cfg.max_file_size) :
    _compress_files (_compress_files files cfg) cfg = _compress_files files cfg :=
  compress_id_of_small (_compress_files files cfg) cfg h

/-- Witness for C3: a 201-character file under threshold 200 compresses to
a 187-character value, which the second pass leaves unchanged. -/
theorem c3_idempotent_of_small_witness :
    _compress_files (_compress_files [("f", longAs)] cfg200) cfg200 =
      _compress_files [("f", longAs)] cfg200 :=
  c3_idempotent_of_small [("f", longAs)] cfg200 (by decide)

/-- Counterexample to C3 as stated: with `max_file_size = 10` an
11-character file compresses to a 60-character value (the marker alone
overflows the threshold), so a second compression changes it again. -/
theorem c3_counterexample :
    _compress_files (_compress_files [("f", elevenAs)] cfgTen) cfgTen ≠
      _compress_files [("f", elevenAs)] cfgTen := by decide

/-! ### C9 — decoupled file channel, true no-op otherwise -/

/-- C9 (amended): for every state whose conversation is empty or within
budget, the hook skips message trimming and returns exactly the
file-compression result; that result is a patch iff `compress_files` is
true, the files mapping is non-empty, and compression actually changes the
mapping — and it is `None` (a true no-op) iff `compress_files` is false,
the files are empty, or compression changes nothing. (A file exceeding
`max_file_size` whose truncation coincides with its own content therefore
yields no patch.) -/
theorem c9_skip_trim_file_channel (cfg : CompressionConfig)
    (counter : List Message → Nat)
    (trimmer : CompressionConfig → List Message → Except String (List Message))
    (st : AgentState)
    (h : st.messages = [] ∨ counter st.messages ≤ cfg.max_tokens) :
    compression_hook cfg counter trimmer st = _compress_files_if_needed st cfg ∧
    (_compress_files_if_needed st cfg = none ↔
      cfg.compress_files = false ∨ st.files = [] ∨
        _compress_files st.files cfg = st.files) :=
  ⟨hook_within_budget cfg counter trimmer st h, cfin_eq_none_iff st cfg⟩

/-- Witness for C9: a one-message state within budget whose only file is
oversized; the hook returns the file patch, and the no-op characterization
holds. -/
theorem c9_skip_trim_file_channel_witness :
    compression_hook cfgFileOnly lenCounter dropOneTrimmer stSmall =
      _compress_files_if_needed stSmall cfgFileOnly ∧
    (_compress_files_if_needed stSmall cfgFileOnly = none ↔
      cfgFileOnly.compress_files = false ∨ stSmall.files = [] ∨
        _compress_files stSmall.files cfgFileOnly = stSmall.files) :=
  c9_skip_trim_file_channel cfgFileOnly lenCounter dropOneTrimmer stSmall
    (Or.inr (by decide))

/-- Counterexample to C9 as stated: with `max_file_size = 3` and an empty
conversation, the file `fixedContent` exceeds the threshold (57 > 3) and
`compress_files` is true, yet the hook returns `None`, because the
truncation rule maps this content to itself and the code only patches when
`compressed_files != files`. -/
theorem c9_counterexample :
    cfgFileOnly.compress_files = true ∧
    ("f", fixedContent) ∈ stFix.files ∧
    cfgFileOnly.max_file_size < fixedContent.length ∧
    stFix.messages = [] ∧
    compression_hook cfgFileOnly lenCounter dropOneTrimmer stFix = none :=
  ⟨rfl, by decide, by decide, rfl, by decide⟩

/-! ### C7 — local degradation on trimming failure -/

/-- C7: if the trimming computation raises, the hook catches the exception
locally and degrades to the pure file-compression result — the hook is a
total function into `Option Patch`, so no error ever propagates to the
host. -/
theorem c7_trim_error_degrades (cfg : CompressionConfig)
    (counter : List Message → Nat)
    (trimmer : CompressionConfig → List Message → Except String (List Message))
    (st : AgentState) (e : String)
    (h1 : st.messages ≠ []) (h2 : cfg.max_tokens < counter st.messages)
    (h3 : trimmer cfg st.messages = Except.error e) :
    compression_hook cfg counter trimmer st = _compress_files_if_needed st cfg := by
  simp [compression_hook, h1, not_le.mpr h2, h3]

/-- Witness for C7: an over-budget state with an always-raising trimmer;
the hook still returns the file-compression patch. -/
theorem c7_trim_error_degrades_witness :
    compression_hook cfgBoth lenCounter errTrimmer stSmall =
      _compress_files_if_needed stSmall cfgBoth :=
  c7_trim_error_degrades cfgBoth lenCounter errTrimmer stSmall "trim failed"
    (by decide) (by decide) rfl

/-! ### C5 — identity under budget -/

/-- C5 (amended): if the counted token cost is within `max_tokens`, the
hook performs no message trimming — it returns exactly the
file-compression result, and the message list consumed downstream is the
input view unchanged except possibly for a single appended
file-compression notification (never a trimmed replacement). -/
theorem c5_identity_under_budget (cfg : CompressionConfig)
    (counter : List Message → Nat)
    (trimmer : CompressionConfig → List Message → Except String (List Message))
    (st : AgentState)
    (h : counter st.messages ≤ cfg.max_tokens) :
    compression_hook cfg counter trimmer st = _compress_files_if_needed st cfg ∧
    (downstreamMessages st (compression_hook cfg counter trimmer st) = st.messages ∨
     downstreamMessages st (compression_hook cfg counter trimmer st) =
       (st.llm_input_messages.getD st.messages) ++ [fileNotice st.files cfg] ∨
     downstreamMessages st (compression_hook cfg counter trimmer st) =
       st.messages ++ [fileNotice st.files cfg]) := by
  have heq := hook_within_budget cfg counter trimmer st (Or.inr h)
  refine ⟨heq, ?_⟩
  rw [heq]
  by_cases hcf : cfg.compress_files = false
  · rw [(cfin_eq_none_iff st cfg).mpr (Or.inl hcf)]
    exact Or.inl rfl
  · by_cases hf : st.files = []
    · rw [(cfin_eq_none_iff st cfg).mpr (Or.inr (Or.inl hf))]
      exact Or.inl rfl
    · by_cases hne : _compress_files st.files cfg = st.files
      · rw [(cfin_eq_none_iff st cfg).mpr (Or.inr (Or.inr hne))]
        exact Or.inl rfl
      · rw [cfin_spec st cfg (by simpa using hcf) hf hne]
        by_cases hd : cfg.destructive
        · rw [if_pos hd]
          refine Or.inr (Or.inr ?_)
          simp only [downstreamMessages, applyPatch, stripItems_append,
            stripItems_map_msg, stripItems_singleton_msg]
        · rw [if_neg hd]
          exact Or.inr (Or.inl rfl)

/-- Witness for C5: a within-budget state with an oversized file; the
downstream list is the canonical history with the file notification
appended. -/
theorem c5_identity_under_budget_witness :
    compression_hook cfgFileOnly lenCounter dropOneTrimmer stSmall =
      _compress_files_if_needed stSmall cfgFileOnly ∧
    (downstreamMessages stSmall (compression_hook cfgFileOnly lenCounter dropOneTrimmer stSmall) =
       stSmall.messages ∨
     downstreamMessages stSmall (compression_hook cfgFileOnly lenCounter dropOneTrimmer stSmall) =
       (stSmall.llm_input_messages.getD stSmall.messages) ++ [fileNotice stSmall.files cfgFileOnly] ∨
     downstreamMessages stSmall (compression_hook cfgFileOnly lenCounter dropOneTrimmer stSmall) =
       stSmall.messages ++ [fileNotice stSmall.files cfgFileOnly]) :=
  c5_identity_under_budget cfgFileOnly lenCounter dropOneTrimmer stSmall (by decide)

/-- Counterexample to C5 as stated: a within-budget conversation with an
oversized file — the hook is under budget yet the message list consumed
downstream is NOT the input unchanged (the file notification was appended
to the ephemeral view). -/
theorem c5_counterexample :
    lenCounter stSmall.messages ≤ cfgFileOnly.max_tokens ∧
    downstreamMessages stSmall
        (compression_hook cfgFileOnly lenCounter dropOneTrimmer stSmall) ≠
      stSmall.messages :=
  ⟨by decide, by decide⟩

/-! ### C1 — merge of the two channels on a shared message field -/

/-- C1 (amended): when both channels fire, the returned patch does contain
the compressed files mapping, but its message field does NOT reflect the
trimmed kept window: `updates.update(file_updates)` gives the file
channel's value precedence on the shared key, so `messages` (destructive)
resp. `llm_input_messages` (non-destructive) equals the original untrimmed
view with the file-compression notification appended. -/
theorem c1_file_patch_overrides_trim (cfg : CompressionConfig)
    (counter : List Message → Nat)
    (trimmer : CompressionConfig → List Message → Except String (List Message))
    (st : AgentState) (kept : List Message)
    (h1 : st.messages ≠ []) (h2 : cfg.max_tokens < counter st.messages)
    (h3 : trimmer cfg st.messages = Except.ok kept)
    (h4 : cfg.compress_files = true) (h5 : st.files ≠ [])
    (h6 : _compress_files st.files cfg ≠ st.files) :
    ∃ p, compression_hook cfg counter trimmer st = some p ∧
      p.files = some (_compress_files st.files cfg) ∧
      (cfg.destructive = true →
        p.messages = some ((st.messages ++ [fileNotice st.files cfg]).map MsgItem.msg) ∧
        p.llm_input_messages = none) ∧
      (cfg.destructive = false →
        p.llm_input_messages =
          some ((st.llm_input_messages.getD st.messages) ++ [fileNotice st.files cfg]) ∧
        p.messages = none) := by
  have hfp := cfin_spec st cfg h4 h5 h6
  by_cases hd : cfg.destructive
  · rw [if_pos hd] at hfp
    refine ⟨{ messages := some ((st.messages ++ [fileNotice st.files cfg]).map MsgItem.msg)
              files := some (_compress_files st.files cfg) },
      ?_, rfl, fun _ => ⟨rfl, rfl⟩, fun hdf => absurd hdf (by simp [hd])⟩
    simp [compression_hook, h1, not_le.mpr h2, h3, hfp, hd, patchUpdate, Patch.isEmpty]
  · rw [if_neg hd] at hfp
    refine ⟨{ llm_input_messages :=
                some ((st.llm_input_messages.getD st.messages) ++ [fileNotice st.files cfg])
              files := some (_compress_files st.files cfg) },
      ?_, rfl, fun hdt => absurd hdt (by simpa using hd), fun _ => ⟨rfl, rfl⟩⟩
    simp [compression_hook, h1, not_le.mpr h2, h3, hfp, hd, patchUpdate, Patch.isEmpty]

/-- Witness for C1 (amended): both channels fire on `stBoth`; the merged
patch carries the compressed file store and the untrimmed view plus file
notification. -/
theorem c1_file_patch_overrides_trim_witness :
    ∃ p, compression_hook cfgBoth lenCounter dropOneTrimmer stBoth = some p ∧
      p.files = some (_compress_files stBoth.files cfgBoth) ∧
      (cfgBoth.destructive = true →
        p.messages = some ((stBoth.messages ++ [fileNotice stBoth.files cfgBoth]).map MsgItem.msg) ∧
        p.llm_input_messages = none) ∧
      (cfgBoth.destructive = false →
        p.llm_input_messages =
          some ((stBoth.llm_input_messages.getD stBoth.messages) ++ [fileNotice stBoth.files cfgBoth]) ∧
        p.messages = none) :=
  c1_file_patch_overrides_trim cfgBoth lenCounter dropOneTrimmer stBoth [mWorld]
    (by decide) (by decide) rfl rfl (by decide) (by decide)

/-- Counterexample to C1 as stated: on `stBoth` (conversation over budget,
file over limit, non-destructive mode) the patch's `llm_input_messages` is
the ORIGINAL untrimmed conversation plus the file notification — it still
contains the dropped first message, which the trimmed kept window `[mWorld]`
does not. -/
theorem c1_counterexample :
    compression_hook cfgBoth lenCounter dropOneTrimmer stBoth =
      some { llm_input_messages := some (stBoth.messages ++ [fileNotice stBoth.files cfgBoth])
             files := some (_compress_files stBoth.files cfgBoth) } ∧
    dropOneTrimmer cfgBoth stBoth.messages = Except.ok [mWorld] ∧
    cfgBoth.max_tokens < lenCounter stBoth.messages ∧
    mHello ∈ stBoth.messages ++ [fileNotice stBoth.files cfgBoth] ∧
    mHello ∉ [mWorld] :=
  ⟨by decide, rfl, by decide, by decide, by decide⟩

/-! ### C4 — destructive vs non-destructive split -/

/-- C4 (amended): when message trimming fires AND file compression
produces no patch, destructive mode emits a replace-all `messages` patch
whose application makes the canonical count `len(kept)` (the trimmed
window including its appended notification), while non-destructive mode
carries no `messages` key at all, leaves the canonical history untouched,
and only `llm_input_messages` reflects the kept window. (When a file patch
also fires in destructive mode, the file channel's `messages` value
overrides the replace-all instruction — see the counterexample.) -/
theorem c4_destructive_split (cfg : CompressionConfig)
    (counter : List Message → Nat)
    (trimmer : CompressionConfig → List Message → Except String (List Message))
    (st : AgentState) (kept : List Message)
    (h1 : st.messages ≠ []) (h2 : cfg.max_tokens < counter st.messages)
    (h3 : trimmer cfg st.messages = Except.ok kept)
    (h4 : _compress_files_if_needed st cfg = none) :
    ∃ p, compression_hook cfg counter trimmer st = some p ∧
      (cfg.destructive = true →
        p.messages = some (MsgItem.removeAll ::
          (kept ++ [compressionNotice cfg st.messages kept (counter st.messages)
            (counter kept)]).map MsgItem.msg) ∧
        (applyPatch st p).messages =
          kept ++ [compressionNotice cfg st.messages kept (counter st.messages) (counter kept)] ∧
        (applyPatch st p).messages.length = kept.length + 1) ∧
      (cfg.destructive = false →
        p.messages = none ∧
        (applyPatch st p).messages = st.messages ∧
        p.llm_input_messages =
          some (kept ++ [compressionNotice cfg st.messages kept (counter st.messages)
            (counter kept)])) := by
  by_cases hd : cfg.destructive
  · refine ⟨⟨some (MsgItem.removeAll ::
        (kept ++ [compressionNotice cfg st.messages kept (counter st.messages)
          (counter kept)]).map MsgItem.msg), none, none⟩,
      ?_, fun _ => ⟨rfl, ?_, ?_⟩, fun hdf => absurd hdf (by simp [hd])⟩
    · simp [compression_hook, h1, not_le.mpr h2, h3, h4, hd, Patch.isEmpty]
    · simp [applyPatch, stripItems_removeAll, stripItems_append, stripItems_map_msg,
        stripItems_singleton_msg]
    · simp [applyPatch, stripItems_removeAll, stripItems_append, stripItems_map_msg,
        stripItems_singleton_msg]
  · refine ⟨⟨none, some (kept ++ [compressionNotice cfg st.messages kept
        (counter st.messages) (counter kept)]), none⟩,
      ?_, fun hdt => absurd hdt (by simpa using hd), fun _ => ⟨rfl, rfl, rfl⟩⟩
    simp [compression_hook, h1, not_le.mpr h2, h3, h4, hd, Patch.isEmpty]

/-- Witness for C4: trimming fires on `stTrim` (no files) in both modes;
destructive application yields exactly the kept window plus notification
(count 2), non-destructive leaves the canonical history untouched. -/
theorem c4_destructive_split_witness :
    (∃ p, compression_hook cfgTrimD lenCounter dropOneTrimmer stTrim = some p ∧
      (cfgTrimD.destructive = true →
        p.messages = some (MsgItem.removeAll ::
          ([mWorld] ++ [compressionNotice cfgTrimD stTrim.messages [mWorld]
            (lenCounter stTrim.messages) (lenCounter [mWorld])]).map MsgItem.msg) ∧
        (applyPatch stTrim p).messages =
          [mWorld] ++ [compressionNotice cfgTrimD stTrim.messages [mWorld]
            (lenCounter stTrim.messages) (lenCounter [mWorld])] ∧
        (applyPatch stTrim p).messages.length = [mWorld].length + 1) ∧
      (cfgTrimD.destructive = false →
        p.messages = none ∧
        (applyPatch stTrim p).messages = stTrim.messages ∧
        p.llm_input_messages =
          some ([mWorld] ++ [compressionNotice cfgTrimD stTrim.messages [mWorld]
            (lenCounter stTrim.messages) (lenCounter [mWorld])]))) ∧
    (∃ p, compression_hook cfgTrimN lenCounter dropOneTrimmer stTrim = some p ∧
      (cfgTrimN.destructive = true →
        p.messages = some (MsgItem.removeAll ::
          ([mWorld] ++ [compressionNotice cfgTrimN stTrim.messages [mWorld]
            (lenCounter stTrim.messages) (lenCounter [mWorld])]).map MsgItem.msg) ∧
        (applyPatch stTrim p).messages =
          [mWorld] ++ [compressionNotice cfgTrimN stTrim.messages [mWorld]
            (lenCounter stTrim.messages) (lenCounter [mWorld])] ∧
        (applyPatch stTrim p).messages.length = [mWorld].length + 1) ∧
      (cfgTrimN.destructive = false →
        p.messages = none ∧
        (applyPatch stTrim p).messages = stTrim.messages ∧
        p.llm_input_messages =
          some ([mWorld] ++ [compressionNotice cfgTrimN stTrim.messages [mWorld]
            (lenCounter stTrim.messages) (lenCounter [mWorld])]))) :=
  ⟨c4_destructive_split cfgTrimD lenCounter dropOneTrimmer stTrim [mWorld]
      (by decide) (by decide) rfl rfl,
   c4_destructive_split cfgTrimN lenCounter dropOneTrimmer stTrim [mWorld]
      (by decide) (by decide) rfl rfl⟩

/-- Counterexample to C4 as stated: trimming fires on `stBoth` in
destructive mode, but the file channel also fires and its `messages` value
(the original history plus file notification, with no replace-all marker)
overrides the trim replacement, so the applied canonical count is 3, not
`len(kept) = 2`. -/
theorem c4_counterexample :
    (compression_hook cfgBothD lenCounter dropOneTrimmer stBoth).map
        (fun p => ((applyPatch stBoth p).messages.length, p.messages)) =
      some (3, some ((stBoth.messages ++ [fileNotice stBoth.files cfgBothD]).map MsgItem.msg)) ∧
    dropOneTrimmer cfgBothD stBoth.messages = Except.ok [mWorld] ∧
    ([mWorld] ++ [compressionNotice cfgBothD stBoth.messages [mWorld]
      (lenCounter stBoth.messages) (lenCounter [mWorld])]).length = 2 ∧
    (2 : Nat) ≠ 3 :=
  ⟨by decide, rfl, by decide, by decide⟩

lemma cfin_messages_none (st : AgentState) (cfg : CompressionConfig)
    (hd : cfg.destructive = false) (p : Patch)
    (h : _compress_files_if_needed st cfg = some p) : p.messages = none := by
  simp only [_compress_files_if_needed] at h
  split at h
  · exact absurd h (by simp)
  · split at h
    · exact absurd h (by simp)
    · split at h
      · split at h
        · rw [hd] at h
          simp only [Bool.false_eq_true, if_false] at h
          cases h
          rfl
        · cases h
          rfl
      · exact absurd h (by simp)

lemma hook_messages_none (cfg : CompressionConfig) (counter : List Message → Nat)
    (trimmer : CompressionConfig → List Message → Except String (List Message))
    (st : AgentState) (hd : cfg.destructive = false) (p : Patch)
    (h : compression_hook cfg counter trimmer st = some p) : p.messages = none := by
  simp only [compression_hook] at h
  split at h
  · exact cfin_messages_none st cfg hd p h
  · split at h
    · exact cfin_messages_none st cfg hd p h
    · split at h
      · exact cfin_messages_none st cfg hd p h
      · rw [hd] at h
        simp only [Bool.false_eq_true, if_false] at h
        cases hcf : _compress_files_if_needed st cfg with
        | none =>
          rw [hcf] at h
          simp only [Patch.isEmpty, Option.isNone, Bool.and_self, Bool.false_and,
            Bool.and_false, if_neg, Bool.false_eq_true, if_false] at h
          cases h
          rfl
        | some f =>
          have hf := cfin_messages_none st cfg hd f hcf
          rw [hcf] at h
          simp only [patchUpdate, hf, Option.none_orElse, Option.orElse_none,
            Patch.isEmpty, Option.isNone] at h
          split at h
          · cases h
          · cases h
            simp [hf]

/-! ### C8 — notifications: appended, and counted or not on re-evaluation -/

/-- C8 (amended): in BOTH modes every notification is appended to the END
of the relevant output list, never prepended — when trimming fires the
patch's message value is the kept window followed by the trim summary
(behind the replace-all marker in destructive mode, in the ephemeral view
otherwise), and the file patch's message value is the message view
followed by the file notice. In non-destructive mode the canonical history
is never patched, so the list whose token budget is re-evaluated at the
next invocation is the original history, which the notification never
joins; in destructive mode the canonical history at the next invocation is
the kept window with the trim notification as its last element, so the
notification IS part of the list counted on re-evaluation. -/
theorem c8_notification_placement (cfg : CompressionConfig)
    (counter : List Message → Nat)
    (trimmer : CompressionConfig → List Message → Except String (List Message))
    (st st2 st3 : AgentState) (kept : List Message)
    (h1 : st2.messages ≠ []) (h2 : cfg.max_tokens < counter st2.messages)
    (h3 : trimmer cfg st2.messages = Except.ok kept)
    (h4 : _compress_files_if_needed st2 cfg = none)
    (h5 : cfg.compress_files = true) (h6 : st3.files ≠ [])
    (h7 : _compress_files st3.files cfg ≠ st3.files) :
    compression_hook cfg counter trimmer st2 =
      (if cfg.destructive then
        some { messages := some (MsgItem.removeAll :: (kept ++
          [compressionNotice cfg st2.messages kept (counter st2.messages)
            (counter kept)]).map MsgItem.msg) }
      else
        some { llm_input_messages := some (kept ++
          [compressionNotice cfg st2.messages kept (counter st2.messages)
            (counter kept)]) }) ∧
    _compress_files_if_needed st3 cfg =
      (if cfg.destructive then
        some { messages := some ((st3.messages ++ [fileNotice st3.files cfg]).map MsgItem.msg)
               files := some (_compress_files st3.files cfg) }
      else
        some { llm_input_messages :=
                 some ((st3.llm_input_messages.getD st3.messages) ++ [fileNotice st3.files cfg])
               files := some (_compress_files st3.files cfg) }) ∧
    (cfg.destructive = true →
      (nextTurnState st2 (compression_hook cfg counter trimmer st2)).messages =
        kept ++ [compressionNotice cfg st2.messages kept (counter st2.messages)
          (counter kept)]) ∧
    (cfg.destructive = false →
      (nextTurnState st (compression_hook cfg counter trimmer st)).messages = st.messages) := by
  have ha : compression_hook cfg counter trimmer st2 =
      (if cfg.destructive then
        some { messages := some (MsgItem.removeAll :: (kept ++
          [compressionNotice cfg st2.messages kept (counter st2.messages)
            (counter kept)]).map MsgItem.msg) }
      else
        some { llm_input_messages := some (kept ++
          [compressionNotice cfg st2.messages kept (counter st2.messages)
            (counter kept)]) }) := by
    by_cases hd : cfg.destructive
    · rw [if_pos hd]
      simp [compression_hook, h1, not_le.mpr h2, h3, h4, hd, Patch.isEmpty]
    · rw [if_neg hd]
      simp [compression_hook, h1, not_le.mpr h2, h3, h4, hd, Patch.isEmpty]
  refine ⟨ha, cfin_spec st3 cfg h5 h6 h7, fun hd => ?_, fun hd => ?_⟩
  · rw [ha, if_pos hd]
    simp only [nextTurnState, applyPatch, stripItems_removeAll, stripItems_append,
      stripItems_map_msg, stripItems_singleton_msg]
  · cases hres : compression_hook cfg counter trimmer st with
    | none => simp [nextTurnState]
    | some p =>
      have hm := hook_messages_none cfg counter trimmer st hd p hres
      simp [nextTurnState, applyPatch, hm]

/-- Witness for C8, exercising both modes: with destructive `cfgTrimD` on
`stTrim` the trim notification sits at the end of the replace-all list and
of the next-turn canonical history; with non-destructive `cfgBoth` it sits
at the end of the ephemeral view, the file notice at the end of the view in
the file patch on `stSmall`, and the canonical history of `stBoth` survives
the turn unchanged. -/
theorem c8_notification_placement_witness :
    (compression_hook cfgBothD lenCounter dropOneTrimmer stTrim =
      (if cfgBothD.destructive then
        some { messages := some (MsgItem.removeAll :: ([mWorld] ++
          [compressionNotice cfgBothD stTrim.messages [mWorld]
            (lenCounter stTrim.messages) (lenCounter [mWorld])]).map MsgItem.msg) }
      else
        some { llm_input_messages := some ([mWorld] ++
          [compressionNotice cfgBothD stTrim.messages [mWorld]
            (lenCounter stTrim.messages) (lenCounter [mWorld])]) }) ∧
    _compress_files_if_needed stSmall cfgBothD =
      (if cfgBothD.destructive then
        some { messages := some ((stSmall.messages ++ [fileNotice stSmall.files cfgBothD]).map MsgItem.msg)
               files := some (_compress_files stSmall.files cfgBothD) }
      else
        some { llm_input_messages :=
                 some ((stSmall.llm_input_messages.getD stSmall.messages)
                   ++ [fileNotice stSmall.files cfgBothD])
               files := some (_compress_files stSmall.files cfgBothD) }) ∧
    (cfgBothD.destructive = true →
      (nextTurnState stTrim (compression_hook cfgBothD lenCounter dropOneTrimmer stTrim)).messages =
        [mWorld] ++ [compressionNotice cfgBothD stTrim.messages [mWorld]
          (lenCounter stTrim.messages) (lenCounter [mWorld])]) ∧
    (cfgBothD.destructive = false →
      (nextTurnState stBoth (compression_hook cfgBothD lenCounter dropOneTrimmer stBoth)).messages =
        stBoth.messages)) ∧
    (compression_hook cfgBoth lenCounter dropOneTrimmer stTrim =
      (if cfgBoth.destructive then
        some { messages := some (MsgItem.removeAll :: ([mWorld] ++
          [compressionNotice cfgBoth stTrim.messages [mWorld]
            (lenCounter stTrim.messages) (lenCounter [mWorld])]).map MsgItem.msg) }
      else
        some { llm_input_messages := some ([mWorld] ++
          [compressionNotice cfgBoth stTrim.messages [mWorld]
            (lenCounter stTrim.messages) (lenCounter [mWorld])]) }) ∧
    _compress_files_if_needed stSmall cfgBoth =
      (if cfgBoth.destructive then
        some { messages := some ((stSmall.messages ++ [fileNotice stSmall.files cfgBoth]).map MsgItem.msg)
               files := some (_compress_files stSmall.files cfgBoth) }
      else
        some { llm_input_messages :=
                 some ((stSmall.llm_input_messages.getD stSmall.messages)
                   ++ [fileNotice stSmall.files cfgBoth])
               files := some (_compress_files stSmall.files cfgBoth) }) ∧
    (cfgBoth.destructive = true →
      (nextTurnState stTrim (compression_hook cfgBoth lenCounter dropOneTrimmer stTrim)).messages =
        [mWorld] ++ [compressionNotice cfgBoth stTrim.messages [mWorld]
          (lenCounter stTrim.messages) (lenCounter [mWorld])]) ∧
    (cfgBoth.destructive = false →
      (nextTurnState stBoth (compression_hook cfgBoth lenCounter dropOneTrimmer stBoth)).messages =
        stBoth.messages)) :=
  ⟨c8_notification_placement cfgBothD lenCounter dropOneTrimmer stBoth stTrim stSmall [mWorld]
      (by decide) (by decide) rfl rfl rfl (by decide) (by decide),
   c8_notification_placement cfgBoth lenCounter dropOneTrimmer stBoth stTrim stSmall [mWorld]
      (by decide) (by decide) rfl rfl rfl (by decide) (by decide)⟩

/-- Counterexample to C8 as stated: in destructive mode the trim
notification is written into the canonical history, so at the next
invocation of the hook the list whose token budget is re-evaluated DOES
contain the notification. -/
theorem c8_counterexample :
    compressionNotice cfgTrimD stTrim.messages [mWorld]
        (lenCounter stTrim.messages) (lenCounter [mWorld]) ∈
      (nextTurnState stTrim
        (compression_hook cfgTrimD lenCounter dropOneTrimmer stTrim)).messages := by
  decide

lemma dlookup_append {V : Type} (x : String) (l1 l2 : Dict V) :
    dlookup x (l1 ++ l2) = (dlookup x l1 <|> dlookup x l2) := by
  induction l1 with
  | nil => simp [dlookup]
  | cons p rest ih =>
    by_cases hp : p.1 = x
    · simp [dlookup, hp]
    · simp [dlookup, hp, ih]

lemma dlookup_map_subst {V : Type} (e d : Dict V) (x : String) :
    dlookup x (d.map fun p =>
        match dlookup p.1 e with
        | some w => (p.1, w)
        | none => p) =
      match dlookup x d with
      | none => none
      | some v =>
        match dlookup x e with
        | some w => some w
        | none => some v := by
  induction d with
  | nil => rfl
  | cons p rest ih =>
    by_cases hp : p.1 = x
    · subst hp
      cases he : dlookup p.1 e <;> simp [dlookup, he]
    · cases he : dlookup p.1 e <;> simp [dlookup, hp, he, ih]

lemma dlookup_filter_isNone {V : Type} (d e : Dict V) (x : String) :
    dlookup x (e.filter fun p => (dlookup p.1 d).isNone) =
      if (dlookup x d).isNone then dlookup x e else none := by
  induction e with
  | nil => simp [dlookup]
  | cons q rest ih =>
    by_cases hq : q.1 = x
    · subst hq
      cases hdq : dlookup q.1 d <;> simp [List.filter_cons, hdq, dlookup, ih]
    · cases hdq : dlookup q.1 d <;> simp [List.filter_cons, hdq, dlookup, hq, ih]

lemma dlookup_dictUpdate {V : Type} (d e : Dict V) (x : String) :
    dlookup x (dictUpdate d e) = (dlookup x e <|> dlookup x d) := by
  unfold dictUpdate
  rw [dlookup_append, dlookup_map_subst]
  cases hd : dlookup x d <;> cases he : dlookup x e <;>
    simp [dlookup_filter_isNone, hd, he]

lemma dictUpdate_nil_left {V : Type} (e : Dict V) : dictUpdate [] e = e := by
  simp [dictUpdate, dlookup]

lemma dictUpdate_ne_nil {V : Type} (d e : Dict V) (h : d ≠ []) :
    dictUpdate d e ≠ [] := by
  intro hc
  exact h (List.map_eq_nil_iff.mp (List.append_eq_nil.mp hc).1)

lemma dict_isEmpty_false {V : Type} (d : Dict V) (h : d ≠ []) :
    Dict.isEmpty d = false := by
  cases d with
  | nil => exact absurd rfl h
  | cons a t => rfl

/-! ### C6 — hook chaining: order, observation, merge -/

/-- C6: for a two-step chain `[A, B]`, `chain_hooks` runs the steps in
list order with A's patch merged into the state B observes (the result is
computed from B's output at `dictUpdate s pa`), the composite patch is
`dictUpdate pa pb`; on a field both steps patch the composite carries B's
value (last-writer-wins), and on fields only one step patches the
composite carries that step's value, so disjoint patches are both
present. -/
theorem c6_chain_order (V : Type) (A B : Dict V → Option (Dict V))
    (s pa pb : Dict V)
    (hA : A s = some pa) (hpa : pa ≠ [])
    (hB : B (dictUpdate s pa) = some pb) (hpb : pb ≠ []) :
    chain_hooks [A, B] s = some (dictUpdate pa pb) ∧
    (∀ x v, dlookup x pb = some v → dlookup x (dictUpdate pa pb) = some v) ∧
    (∀ x v, dlookup x pb = none → dlookup x pa = some v →
      dlookup x (dictUpdate pa pb) = some v) := by
  refine ⟨?_, ?_, ?_⟩
  · simp [chain_hooks, runHooks, hA, hB, dict_isEmpty_false pa hpa,
      dict_isEmpty_false pb hpb, dictUpdate_nil_left,
      dict_isEmpty_false (dictUpdate pa pb) (dictUpdate_ne_nil pa pb hpa)]
  · intro x v h
    rw [dlookup_dictUpdate]
    simp [h]
  · intro x v h h2
    rw [dlookup_dictUpdate]
    simp [h, h2]

/-- Witness for C6: `wHookA` writes `x=1, y=2`; `wHookB`, observing the
working state, reads back `x=1` and writes `x=6, z=3`; the composite has
B's `x`, A's `y` and B's `z`. -/
theorem c6_chain_order_witness :
    chain_hooks [wHookA, wHookB] wState =
      some (dictUpdate [("x", 1), ("y", 2)] [("x", 6), ("z", 3)]) ∧
    (∀ x v, dlookup x [("x", 6), ("z", 3)] = some v →
      dlookup x (dictUpdate [("x", 1), ("y", 2)] [("x", 6), ("z", 3)]) = some v) ∧
    (∀ x v, dlookup x [("x", 6), ("z", 3)] = none →
      dlookup x [("x", 1), ("y", 2)] = some v →
      dlookup x (dictUpdate [("x", 1), ("y", 2)] [("x", 6), ("z", 3)]) = some v) :=
  c6_chain_order Nat wHookA wHookB wState [("x", 1), ("y", 2)] [("x", 6), ("z", 3)]
    rfl (by decide) (by decide) (by decide)

end DeepAgents
